import Mathlib

/-!
Shallow embedding of the real-time classification pipeline of the
Sedentary_Tracker_Behaviour server (Rust sources under src/server/src/).

Modelling conventions:
- `f32` acceleration values and thresholds are modelled as exact rationals
  (`ℚ`); the source only adds, divides and compares them.
- `u64` counters are modelled as `ℕ` (the sedentary timer counts seconds;
  the 2^64 wrap is unreachable in any run the spec talks about).
- Environment configuration: each loader in the source is
  `env::var(NAME).ok().and_then(|s| s.parse().ok()).unwrap_or(default)`.
  We model the result of `env::var(..).ok().and_then(parse.ok())` as an
  `Option` argument (`none` covers both an unset variable and a value whose
  parse fails) and keep the `unwrap_or` step as `Option.getD`.
- Redis list commands on the `sensor_history` key are modelled on
  `List String` (head = most recent, as LPUSH produces): `LPUSH` is cons,
  `LTRIM key 0 stop` and `LRANGE key 0 stop` keep/return the first
  `stop + 1` elements (modelled for the non-negative `stop` used here).
- Wall-clock timestamps (`Utc::now`, the `timestamp` field of
  `ProcessedState`, tokio sleep intervals) are not modelled; time enters
  only through the integer second counters the fallback logic compares.
-/

namespace SedentaryTracker

/-- serial.rs `thresh_fidget`: parsed THRESH_FIDGET or default 0.020
(identical helper in replay.rs). -/
def thresh_fidget (parsed : Option ℚ) : ℚ := parsed.getD (20/1000)

/-- serial.rs `thresh_active`: parsed THRESH_ACTIVE or default 0.040
(identical helper in replay.rs). -/
def thresh_active (parsed : Option ℚ) : ℚ := parsed.getD (40/1000)

/-- serial.rs `alert_limit_sec`: parsed ALERT_LIMIT_SECONDS or default 1200. -/
def alert_limit_sec (parsed : Option ℕ) : ℕ := parsed.getD 1200

/-- serial.rs `sensor_history_limit`: parsed SENSOR_HISTORY_LIMIT or
default 500 (an `isize` in the source, hence `Int`). -/
def sensor_history_limit (parsed : Option Int) : Int := parsed.getD 500

/-- fallback.rs `fallback_timeout_seconds`: parsed FALLBACK_TIMEOUT_SECONDS
or default 10. -/
def fallback_timeout_seconds (parsed : Option ℕ) : ℕ := parsed.getD 10

/-- fallback.rs `fallback_batch_size`: parsed FALLBACK_BATCH_SIZE or
default 500 (an `i64` in the source). -/
def fallback_batch_size (parsed : Option Int) : Int := parsed.getD 500

/-- fallback.rs `fallback_replay_interval_ms`: parsed
FALLBACK_REPLAY_INTERVAL_MS or default 100. -/
def fallback_replay_interval_ms (parsed : Option ℕ) : ℕ := parsed.getD 100

/-- The classification configuration a running process has loaded
(in the source every call re-reads the environment; the environment is
fixed for the lifetime of a run). -/
structure Config where
  thresh_fidget : ℚ
  thresh_active : ℚ
  alert_limit_sec : ℕ
  deriving DecidableEq, Repr

/-- The configuration of a process whose threshold variables are unset or
unparseable: every loader falls back to its default. -/
def defaultConfig : Config :=
  { thresh_fidget := thresh_fidget none
    thresh_active := thresh_active none
    alert_limit_sec := alert_limit_sec none }

/-- serial.rs line 42 / replay.rs line 13: `SMOOTHING_WINDOW = 10`. -/
def SMOOTHING_WINDOW : ℕ := 10

/-- models::RawReading as used by serial.rs/replay.rs: a JSON object
`{ts, pir, acc}` with `ts` the second-resolution time label (String),
`pir` the PIR motion flag (`i32`), `acc` the acceleration magnitude
(`f32`, modelled as `ℚ`). -/
structure RawReading where
  ts : String
  pir : Int
  acc : ℚ
  deriving DecidableEq, Repr

/-- models::ProcessedState as built in serial.rs/replay.rs/fallback.rs
(the wall-clock `timestamp` field is not modelled). -/
structure ProcessedState where
  state : String
  timer : ℕ
  val : ℚ
  alert : Bool
  deriving DecidableEq, Repr

/-- serial.rs lines 45-53 `classify_state` (replay.rs lines 29-37 is
textually identical): ACTIVE if the PIR value is exactly 1 or the smoothed
acceleration exceeds the active threshold, else FIDGET if it exceeds the
fidget threshold, else SEDENTARY. -/
def classify_state (cfg : Config) (pir : Int) (smoothed_acc : ℚ) : String :=
  if pir = 1 ∨ smoothed_acc > cfg.thresh_active then "ACTIVE"
  else if smoothed_acc > cfg.thresh_fidget then "FIDGET"
  else "SEDENTARY"

/-- serial.rs lines 97-100 (replay.rs 69-72): evict the front of the
smoothing buffer once it holds `SMOOTHING_WINDOW` samples, then push the
new magnitude at the back. The list front is the oldest sample, matching
the `VecDeque` pop_front/push_back use. -/
def pushSample (buf : List ℚ) (a : ℚ) : List ℚ :=
  (if SMOOTHING_WINDOW ≤ buf.length then buf.tail else buf) ++ [a]

/-- serial.rs lines 103-107 (replay.rs 75-79): mean of the buffer
contents, 0.0 when the buffer is empty. -/
def smoothedOf (buf : List ℚ) : ℚ :=
  if buf.isEmpty then 0 else buf.sum / buf.length

/-- serial.rs lines 117-122 (replay.rs 89-94): the per-second timer match.
ACTIVE resets to 0, FIDGET leaves it, SEDENTARY increments; the source's
catch-all arm leaves it unchanged. -/
def updateTimer (state : String) (sedentary_timer : ℕ) : ℕ :=
  if state = "ACTIVE" then 0
  else if state = "FIDGET" then sedentary_timer
  else if state = "SEDENTARY" then sedentary_timer + 1
  else sedentary_timer

/-- The mutable per-source classifier state of serial.rs lines 73-75
(replay.rs 47-49): smoothing buffer, sedentary timer, last second label. -/
structure ClassifierState where
  acc_buffer : List ℚ
  sedentary_timer : ℕ
  last_second : Option String
  deriving DecidableEq, Repr

/-- Initial classifier state: empty buffer, timer 0, no last second. -/
def initClassifier : ClassifierState :=
  { acc_buffer := [], sedentary_timer := 0, last_second := none }

/-- One iteration of the per-reading body shared by serial.rs lines 96-136
and replay.rs lines 68-108: push into the smoothing window, smooth,
classify, update the timer only when the reading's second label differs
from the remembered one, and build the broadcast `ProcessedState`. -/
def processReading (cfg : Config) (s : ClassifierState) (r : RawReading) :
    ClassifierState × ProcessedState :=
  let buf := pushSample s.acc_buffer r.acc
  let smoothed_acc := smoothedOf buf
  let state := classify_state cfg r.pir smoothed_acc
  let upd :=
    if s.last_second ≠ some r.ts then
      (updateTimer state s.sedentary_timer, some r.ts)
    else
      (s.sedentary_timer, s.last_second)
  ({ acc_buffer := buf, sedentary_timer := upd.1, last_second := upd.2 },
   { state := state, timer := upd.1, val := smoothed_acc,
     alert := decide (cfg.alert_limit_sec ≤ upd.1) })

/-- Run the classifier body over a list of readings from a given state,
collecting the emitted `ProcessedState`s in order. -/
def runFrom (cfg : Config) (s : ClassifierState) :
    List RawReading → List ProcessedState
  | [] => []
  | r :: rs =>
      (processReading cfg s r).2 :: runFrom cfg (processReading cfg s r).1 rs

/-- A fresh classifier instance (hardware listener or file replay)
processing a whole sequence of readings. -/
def runClassifier (cfg : Config) (rs : List RawReading) : List ProcessedState :=
  runFrom cfg initClassifier rs

/-- Thread the classifier state through a list of readings, keeping only
the final state. -/
def stepAll (cfg : Config) (s : ClassifierState) (rs : List RawReading) :
    ClassifierState :=
  rs.foldl (fun t r => (processReading cfg t r).1) s

/-- The last at-most-`SMOOTHING_WINDOW` elements of a list: what the
smoothing buffer holds after the listed magnitudes were pushed in order. -/
def lastWindow (l : List ℚ) : List ℚ := l.drop (l.length - SMOOTHING_WINDOW)

/-- Arithmetic mean of a list of rationals (the quantity the spec names;
compared against what the code computes). -/
def mean (l : List ℚ) : ℚ := l.sum / l.length

/-! ## Fallback controller (fallback.rs) -/

/-- fallback.rs lines 35-38 `FallbackState`: the shared liveness state
(atomics modelled as plain fields of an explicitly threaded record;
timestamps are whole seconds since the epoch, as `current_timestamp`
produces). -/
structure FallbackState where
  last_data_time : ℕ
  is_fallback_active : Bool
  deriving DecidableEq, Repr

/-- fallback.rs lines 41-46 `FallbackState::new`, with `current_timestamp()`
at startup passed in as `now`. -/
def FallbackState.new (now : ℕ) : FallbackState :=
  { last_data_time := now, is_fallback_active := false }

/-- fallback.rs lines 48-55 `record_data_received`: store the current
timestamp, and clear the fallback flag if it was set. -/
def record_data_received (s : FallbackState) (now : ℕ) : FallbackState :=
  let s1 := { s with last_data_time := now }
  if s1.is_fallback_active then { s1 with is_fallback_active := false } else s1

/-- fallback.rs lines 57-60 `seconds_since_last_data`
(`saturating_sub` is ℕ subtraction). -/
def seconds_since_last_data (s : FallbackState) (now : ℕ) : ℕ :=
  now - s.last_data_time

/-- fallback.rs lines 62-64 `is_in_fallback`. -/
def is_in_fallback (s : FallbackState) : Bool := s.is_fallback_active

/-- fallback.rs lines 66-70 `enter_fallback`: set the flag. -/
def enter_fallback (s : FallbackState) : FallbackState :=
  { s with is_fallback_active := true }

/-- One body of the 1-second tick loop of `spawn_fallback_monitor`
(fallback.rs lines 100-122): when the idle time reaches the timeout and we
are not already in fallback, enter fallback and start the backfill.
Returns the new state and whether the backfill was invoked on this tick. -/
def monitor_tick (timeout : ℕ) (s : FallbackState) (now : ℕ) :
    FallbackState × Bool :=
  if timeout ≤ seconds_since_last_data s now ∧
      is_in_fallback s = false then
    (enter_fallback s, true)
  else
    (s, false)

/-! ## Database backfill (fallback.rs `backfill_from_database`) -/

/-- A row of the `sedentary_log` table as selected in fallback.rs lines
141-149: `state` is NOT NULL (inserted directly in db_worker.rs),
`timer_seconds` (`i32`) and `acceleration_val` may be NULL, `created_at`
(modelled as seconds, unused by the logic proved here) may be NULL. -/
structure DbRow where
  state : String
  timer_seconds : Option Int
  acceleration_val : Option ℚ
  created_at : Option ℕ
  deriving DecidableEq, Repr

/-- Rust `as u64` on an `i32` value: sign-extend and reinterpret, i.e.
reduce modulo 2^64. -/
def u64_of_i32 (t : Int) : ℕ := (t % (2 : Int) ^ 64).toNat

/-- fallback.rs lines 172-184: convert a fetched row to the
`ProcessedState` that is broadcast. The timer is the stored value
(0 when NULL, cast `as u64`), the value the stored magnitude (0.0 when
NULL), the state string is taken verbatim, and the alert flag is computed
as `timer >= alert_limit_sec()` against the current configuration. -/
def row_to_processed (alert_threshold : ℕ) (row : DbRow) : ProcessedState :=
  let timer := u64_of_i32 (row.timer_seconds.getD 0)
  { state := row.state
    timer := timer
    val := row.acceleration_val.getD 0
    alert := decide (alert_threshold ≤ timer) }

/-- The emission loop of fallback.rs lines 165-200: walk the
chronologically ordered rows and, at the top of each iteration, stop if
the liveness flag shows fallback is no longer active. `inFb i` is the
value `is_in_fallback` reads at iteration `i` (the flag is written
concurrently by `record_data_received`). -/
def replayRows (inFb : ℕ → Bool) : ℕ → List DbRow → List DbRow
  | _, [] => []
  | i, row :: rest =>
      if inFb i = false then []
      else row :: replayRows inFb (i + 1) rest

/-- fallback.rs lines 141-200 `backfill_from_database`, reduced to the
emission order it produces: rows arrive newest-first from the query
(`ORDER BY created_at DESC LIMIT batch`), an empty batch returns nothing,
otherwise the reversed (oldest-first) batch is replayed subject to the
per-iteration liveness check. -/
def backfill_emitted (rows : List DbRow) (inFb : ℕ → Bool) : List DbRow :=
  if rows.isEmpty then [] else replayRows inFb 0 rows.reverse

/-! ## Redis history cache (serial.rs, fallback.rs, sse.rs) -/

/-- Redis LPUSH on the modelled list (head = most recent). -/
def lpush (hist : List String) (msg : String) : List String := msg :: hist

/-- Redis `LTRIM key 0 stop` for the non-negative `stop` values used by
the source: keep the first `stop + 1` elements. -/
def ltrim_keep (hist : List String) (stop : Int) : List String :=
  hist.take (stop + 1).toNat

/-- Redis `LRANGE key 0 stop` for non-negative `stop`: the first
`stop + 1` elements. -/
def lrange (hist : List String) (stop : Int) : List String :=
  hist.take (stop + 1).toNat

/-- serial.rs lines 146-153: after broadcasting a live classification,
LPUSH the serialized state and LTRIM to `sensor_history_limit() - 1`. -/
def serial_cache_update (limit : Int) (hist : List String) (msg : String) :
    List String :=
  ltrim_keep (lpush hist msg) (limit - 1)

/-- fallback.rs lines 192-195: after broadcasting a backfilled state,
LPUSH the serialized state and LTRIM to the literal 99. -/
def fallback_cache_update (hist : List String) (msg : String) :
    List String :=
  ltrim_keep (lpush hist msg) 99

/-! ## SSE observer stream (sse.rs `create_sensor_stream`) -/

/-- sse.rs lines 31-75: the sequence of `sensor-data` events a newly
subscribed observer receives. Unless history is skipped, first LRANGE the
cached history (`0 .. SENSOR_HISTORY_LIMIT - 1`, newest-first) and yield
it reversed (oldest-first); only then subscribe to the broadcast channel
and yield the live messages (`live` = the messages published after that
subscription, in publish order). -/
def create_sensor_stream (skip_history : Bool) (cache : List String)
    (limit : Int) (live : List String) : List String :=
  let history := if skip_history then [] else lrange cache (limit - 1)
  history.reverse ++ live

/-! ## Smoothing-window lemmas -/

lemma lastWindow_push (l : List ℚ) (a : ℚ) :
    pushSample (lastWindow l) a = lastWindow (l ++ [a]) := by
  unfold pushSample lastWindow SMOOTHING_WINDOW
  rcases le_or_lt 10 l.length with h | h
  · have hlen : (l.drop (l.length - 10)).length = 10 := by
      rw [List.length_drop]; omega
    rw [if_pos (le_of_eq hlen.symm), List.tail_drop, List.length_append,
      List.drop_append_of_le_length (by simp only [List.length_singleton]; omega)]
    congr 2
    simp only [List.length_singleton]
    omega
  · have h0 : l.length - 10 = 0 := by omega
    rw [h0, List.drop_zero, if_neg (by omega : ¬ 10 ≤ l.length),
      List.length_append]
    have h1 : l.length + [a].length - 10 = 0 := by simp; omega
    rw [h1, List.drop_zero]

lemma lastWindow_length (l : List ℚ) :
    (lastWindow l).length = min l.length SMOOTHING_WINDOW := by
  unfold lastWindow
  rw [List.length_drop]
  omega

lemma processReading_buffer (cfg : Config) (s : ClassifierState)
    (r : RawReading) :
    (processReading cfg s r).1.acc_buffer = pushSample s.acc_buffer r.acc :=
  rfl

lemma processReading_val (cfg : Config) (s : ClassifierState)
    (r : RawReading) :
    (processReading cfg s r).2.val = smoothedOf (pushSample s.acc_buffer r.acc) :=
  rfl

lemma smoothedOf_eq_mean (l : List ℚ) (h : l ≠ []) : smoothedOf l = mean l := by
  unfold smoothedOf mean
  rw [if_neg (by simpa using h)]

lemma runFrom_val_eq (cfg : Config) (rs : List RawReading) :
    ∀ (seen : List ℚ) (s : ClassifierState),
      s.acc_buffer = lastWindow seen →
      ∀ i, i < rs.length →
        ((runFrom cfg s rs).map (fun p => p.val)).getD i 0
          = smoothedOf (lastWindow (seen ++ (rs.take (i+1)).map (fun r => r.acc))) := by
  induction rs with
  | nil => intro seen s _ i hi; simp at hi
  | cons r rs ih =>
      intro seen s hbuf i hi
      match i with
      | 0 =>
        simp only [runFrom, List.map_cons, List.getD_cons_zero]
        rw [processReading_val, hbuf, lastWindow_push]
        simp
      | (i + 1) =>
        simp only [runFrom, List.map_cons, List.getD_cons_succ]
        have hbuf' : (processReading cfg s r).1.acc_buffer
            = lastWindow (seen ++ [r.acc]) := by
          rw [processReading_buffer, hbuf, lastWindow_push]
        have hrec := ih (seen ++ [r.acc]) (processReading cfg s r).1 hbuf' i
          (by simpa using hi)
        rw [hrec]
        congr 2
        simp [List.take_succ_cons]

/-- Two sample readings: two SEDENTARY-range magnitudes in consecutive
seconds (the spec's end-to-end example shape). -/
def demoReadings : List RawReading :=
  [{ ts := "10:00:00", pir := 0, acc := 1/100 },
   { ts := "10:00:01", pir := 0, acc := 3/100 }]

/-- A mid-run classifier state: timer at 5, last second label recorded. -/
def c3state : ClassifierState :=
  { acc_buffer := [], sedentary_timer := 5, last_second := some "10:00:00" }

/-- A reading whose second label repeats the one already recorded. -/
def c3reading : RawReading := { ts := "10:00:00", pir := 0, acc := 1/100 }

/-- A concrete 3-row backfill batch as fetched, newest-first. -/
def c5rows : List DbRow :=
  [{ state := "ACTIVE", timer_seconds := some 0, acceleration_val := some (9/100),
     created_at := some 30 },
   { state := "FIDGET", timer_seconds := some 4, acceleration_val := some (3/100),
     created_at := some 20 },
   { state := "SEDENTARY", timer_seconds := some 4, acceleration_val := some (1/100),
     created_at := some 10 }]

/-- A persisted row whose stored timer sits exactly at the default alert
threshold. -/
def c6row : DbRow :=
  { state := "SEDENTARY", timer_seconds := some 1200,
    acceleration_val := some (5/1000), created_at := some 0 }

/-! ## Per-step classifier lemmas -/

lemma processReading_last_second (cfg : Config) (s : ClassifierState)
    (r : RawReading) :
    (processReading cfg s r).1.last_second = some r.ts := by
  unfold processReading
  by_cases h : s.last_second = some r.ts
  · simp [h]
  · simp [h]

lemma processReading_timer_same (cfg : Config) (s : ClassifierState)
    (r : RawReading) (h : s.last_second = some r.ts) :
    (processReading cfg s r).1.sedentary_timer = s.sedentary_timer
    ∧ (processReading cfg s r).2.timer = s.sedentary_timer := by
  unfold processReading
  simp [h]

lemma processReading_timer_new (cfg : Config) (s : ClassifierState)
    (r : RawReading) (h : s.last_second ≠ some r.ts) :
    (processReading cfg s r).1.sedentary_timer
      = updateTimer
          (classify_state cfg r.pir (smoothedOf (pushSample s.acc_buffer r.acc)))
          s.sedentary_timer := by
  unfold processReading
  simp [h]

lemma stepAll_same_second (cfg : Config) (rs : List RawReading) :
    ∀ (s : ClassifierState) (t : String),
      s.last_second = some t → (∀ x ∈ rs, x.ts = t) →
      (stepAll cfg s rs).sedentary_timer = s.sedentary_timer
      ∧ (stepAll cfg s rs).last_second = s.last_second := by
  induction rs with
  | nil => intro s t _ _; exact ⟨rfl, rfl⟩
  | cons r rest ih =>
      intro s t hlast hall
      have hr : s.last_second = some r.ts := by
        rw [hall r (List.mem_cons_self r rest)]; exact hlast
      have htimer := (processReading_timer_same cfg s r hr).1
      have hsec : (processReading cfg s r).1.last_second = s.last_second := by
        rw [processReading_last_second, hr]
      have hstep : stepAll cfg s (r :: rest)
          = stepAll cfg (processReading cfg s r).1 rest := rfl
      have hrec := ih (processReading cfg s r).1 t
        (by rw [hsec]; exact hlast)
        (fun x hx => hall x (List.mem_cons_of_mem r hx))
      rw [hstep]
      exact ⟨hrec.1.trans htimer, hrec.2.trans hsec⟩

/-! ## Backfill replay lemmas -/

lemma replayRows_spec (inFb : ℕ → Bool) (l : List DbRow) :
    ∀ i : ℕ,
      ∃ k, k ≤ l.length
        ∧ replayRows inFb i l = l.take k
        ∧ (∀ j, j < k → inFb (i + j) = true)
        ∧ (k < l.length → inFb (i + k) = false) := by
  induction l with
  | nil =>
      intro i
      exact ⟨0, Nat.le_refl 0, rfl,
        fun j hj => absurd hj (Nat.not_lt_zero j),
        fun h => absurd h (Nat.not_lt_zero 0)⟩
  | cons r rest ih =>
      intro i
      by_cases h : inFb i = false
      · refine ⟨0, Nat.zero_le _, ?_, fun j hj => absurd hj (Nat.not_lt_zero j), ?_⟩
        · simp [replayRows, h]
        · intro _; simpa using h
      · obtain ⟨k, hk, heq, hall, hend⟩ := ih (i + 1)
        have htrue : inFb i = true := by
          cases hval : inFb i
          · exact absurd hval h
          · rfl
        refine ⟨k + 1, by simpa using Nat.succ_le_succ hk, ?_, ?_, ?_⟩
        · simp [replayRows, htrue, heq]
        · intro j hj
          match j with
          | 0 => simpa using htrue
          | (j + 1) =>
              have harith : i + (j + 1) = (i + 1) + j := by omega
              rw [harith]
              exact hall j (by omega)
        · intro hlt
          have harith : i + (k + 1) = (i + 1) + k := by omega
          rw [harith]
          exact hend (by simpa using hlt)

lemma replayRows_all_true (inFb : ℕ → Bool) (h : ∀ j, inFb j = true)
    (l : List DbRow) : ∀ i, replayRows inFb i l = l := by
  induction l with
  | nil => intro i; rfl
  | cons r rest ih =>
      intro i
      simp [replayRows, h i, ih (i + 1)]

/-! ## Claims -/

/-- Claim C1: for every sequence of raw readings processed by a single
classifier instance (the body shared by the hardware listener and the file
replay), the smoothed acceleration emitted for the i-th reading is the
arithmetic mean of the at most 10 most recent magnitudes (the reading's
own included, the oldest evicted beyond capacity 10): the window is the
length-min(i+1,10) suffix of the magnitudes seen so far, and the smoothing
function yields 0 on an empty buffer. -/
theorem C1_smoothed_is_window_mean (cfg : Config) (rs : List RawReading)
    (i : ℕ) (hi : i < rs.length) :
    ((runClassifier cfg rs).map (fun p => p.val)).getD i 0
        = mean (lastWindow ((rs.take (i+1)).map (fun r => r.acc)))
    ∧ (lastWindow ((rs.take (i+1)).map (fun r => r.acc))).length
        = min (i+1) SMOOTHING_WINDOW
    ∧ lastWindow ((rs.take (i+1)).map (fun r => r.acc))
        <:+ (rs.take (i+1)).map (fun r => r.acc)
    ∧ smoothedOf [] = 0 := by
  have hlen : ((rs.take (i+1)).map (fun r => r.acc)).length = i + 1 := by
    simp only [List.length_map, List.length_take]
    omega
  have hwin : (lastWindow ((rs.take (i+1)).map (fun r => r.acc))).length
      = min (i+1) SMOOTHING_WINDOW := by
    rw [lastWindow_length, hlen]
  refine ⟨?_, hwin, List.drop_suffix _ _, rfl⟩
  have hne : lastWindow ((rs.take (i+1)).map (fun r => r.acc)) ≠ [] := by
    intro hcontra
    rw [hcontra] at hwin
    simp only [List.length_nil, SMOOTHING_WINDOW] at hwin
    omega
  rw [← smoothedOf_eq_mean _ hne]
  have hrun := runFrom_val_eq cfg rs [] initClassifier rfl i hi
  simpa [runClassifier] using hrun

/-- Witness for C1 at a concrete two-reading sequence. -/
theorem C1_witness :
    1 < demoReadings.length ∧
      ((runClassifier defaultConfig demoReadings).map (fun p => p.val)).getD 1 0
        = mean (lastWindow ((demoReadings.take 2).map (fun r => r.acc))) :=
  ⟨by decide,
   (C1_smoothed_is_window_mean defaultConfig demoReadings 1 (by decide)).1⟩

/-- Claim C2: the state rule in evaluation order — ACTIVE iff the PIR
value is 1 or the smoothed acceleration exceeds the active threshold,
otherwise FIDGET iff it exceeds the fidget threshold, otherwise SEDENTARY;
PIR = 1 yields ACTIVE regardless of the smoothed value; the thresholds are
configuration values with defaults 0.040 and 0.020. -/
theorem C2_state_rule (cfg : Config) (pir : Int) (sm sm' : ℚ) :
    classify_state cfg 1 sm' = "ACTIVE"
    ∧ (classify_state cfg pir sm = "ACTIVE" ↔ pir = 1 ∨ sm > cfg.thresh_active)
    ∧ (classify_state cfg pir sm = "FIDGET" ↔
        pir ≠ 1 ∧ sm ≤ cfg.thresh_active ∧ sm > cfg.thresh_fidget)
    ∧ (classify_state cfg pir sm = "SEDENTARY" ↔
        pir ≠ 1 ∧ sm ≤ cfg.thresh_active ∧ sm ≤ cfg.thresh_fidget)
    ∧ thresh_active none = 40/1000 ∧ thresh_fidget none = 20/1000 := by
  unfold classify_state
  refine ⟨by simp, ?_, ?_, ?_, rfl, rfl⟩ <;>
    split_ifs with h1 h2 <;> simp_all [not_or, not_lt] <;> try tauto
  all_goals
    intro hp hle
    rcases h1 with hcase | hcase
    · exact absurd hcase hp
    · exact absurd hle (not_le.mpr hcase)

/-- Claim C10: the motion input is the integer `pir` and only the exact
value 1 counts as motion: for any other value classification ignores it
and depends only on the smoothed acceleration and the thresholds. -/
theorem C10_pir_only_one_is_motion (cfg : Config) (sm : ℚ) (pir : Int)
    (h : pir ≠ 1) :
    classify_state cfg pir sm = classify_state cfg 0 sm
    ∧ classify_state cfg pir sm
        = (if sm > cfg.thresh_active then "ACTIVE"
           else if sm > cfg.thresh_fidget then "FIDGET" else "SEDENTARY") := by
  unfold classify_state
  simp [h]

/-- Witness for C10 at the concrete PIR values 2 and -1. -/
theorem C10_witness :
    ((2 : Int) ≠ 1 ∧ (-1 : Int) ≠ 1)
    ∧ classify_state defaultConfig 2 (5/100) = classify_state defaultConfig 0 (5/100)
    ∧ classify_state defaultConfig (-1) (1/100)
        = classify_state defaultConfig 0 (1/100) :=
  ⟨⟨by decide, by decide⟩,
   (C10_pir_only_one_is_motion defaultConfig (5/100) 2 (by decide)).1,
   (C10_pir_only_one_is_motion defaultConfig (1/100) (-1) (by decide)).1⟩

/-- Claim C3: the sedentary timer is re-evaluated only when the reading's
second label differs from the remembered one — a repeated label leaves it
unchanged, and so does any further sequence of readings within the same
second — and on a transition it becomes 0 for ACTIVE, stays for FIDGET,
and grows by exactly 1 for SEDENTARY. -/
theorem C3_timer_second_transition (cfg : Config) (s : ClassifierState)
    (r : RawReading) (rs : List RawReading) (t : ℕ) :
    (s.last_second = some r.ts →
        (processReading cfg s r).1.sedentary_timer = s.sedentary_timer
        ∧ (processReading cfg s r).2.timer = s.sedentary_timer)
    ∧ (s.last_second ≠ some r.ts →
        (processReading cfg s r).1.sedentary_timer
          = updateTimer
              (classify_state cfg r.pir (smoothedOf (pushSample s.acc_buffer r.acc)))
              s.sedentary_timer)
    ∧ updateTimer "ACTIVE" t = 0
    ∧ updateTimer "FIDGET" t = t
    ∧ updateTimer "SEDENTARY" t = t + 1
    ∧ ((∀ x ∈ rs, x.ts = r.ts) →
        (stepAll cfg (processReading cfg s r).1 rs).sedentary_timer
          = (processReading cfg s r).1.sedentary_timer) := by
  refine ⟨processReading_timer_same cfg s r,
    processReading_timer_new cfg s r, by simp [updateTimer],
    by simp [updateTimer], by simp [updateTimer], ?_⟩
  intro hall
  exact (stepAll_same_second cfg rs (processReading cfg s r).1 r.ts
    (processReading_last_second cfg s r) hall).1

/-- Witness for C3: a repeated second label leaves the timer at 5. -/
theorem C3_witness :
    c3state.last_second = some c3reading.ts
    ∧ (processReading defaultConfig c3state c3reading).1.sedentary_timer
        = c3state.sedentary_timer
    ∧ (stepAll defaultConfig
          (processReading defaultConfig c3state c3reading).1
          [c3reading, c3reading]).sedentary_timer
        = (processReading defaultConfig c3state c3reading).1.sedentary_timer :=
  ⟨rfl,
   ((C3_timer_second_transition defaultConfig c3state c3reading [] 0).1 rfl).1,
   (C3_timer_second_transition defaultConfig c3state c3reading
      [c3reading, c3reading] 0).2.2.2.2.2
     (by intro x hx; fin_cases hx <;> rfl)⟩

/-- Claim C4: the fallback controller starts LIVE with `lastReceivedAt`
the startup time; a tick enters BACKFILL (flag set, backfill invoked)
exactly when the saturating idle time reaches the timeout while not
already in fallback, and otherwise changes nothing; recording a hardware
reading while in fallback clears the flag and always updates
`lastReceivedAt`; the timeout defaults to 10. -/
theorem C4_fallback_state_machine (now t n : ℕ) (s : FallbackState) :
    (FallbackState.new now).is_fallback_active = false
    ∧ (FallbackState.new now).last_data_time = now
    ∧ ((monitor_tick t s n).2 = true ↔
        t ≤ seconds_since_last_data s n ∧ s.is_fallback_active = false)
    ∧ ((monitor_tick t s n).2 = true →
        (monitor_tick t s n).1 = enter_fallback s
        ∧ (monitor_tick t s n).1.is_fallback_active = true)
    ∧ ((monitor_tick t s n).2 = false → (monitor_tick t s n).1 = s)
    ∧ (s.is_fallback_active = true →
        record_data_received s n
          = { last_data_time := n, is_fallback_active := false })
    ∧ (record_data_received s n).last_data_time = n
    ∧ fallback_timeout_seconds none = 10 := by
  refine ⟨rfl, rfl, ?_, ?_, ?_, ?_, ?_, rfl⟩
  · unfold monitor_tick is_in_fallback
    split_ifs with h
    · simpa using h
    · simpa using h
  · unfold monitor_tick is_in_fallback
    split_ifs with h
    · intro _; exact ⟨rfl, rfl⟩
    · intro hfired; simp at hfired
  · unfold monitor_tick is_in_fallback
    split_ifs with h
    · intro hfired; simp at hfired
    · intro _; rfl
  · intro hact
    unfold record_data_received
    simp [hact]
  · by_cases h : s.is_fallback_active = true <;>
      simp [record_data_received, h]

/-- Witness for C4: from startup at 0, a tick at time 10 with the default
timeout fires; recording data at 11 while in fallback returns to LIVE. -/
theorem C4_witness :
    (monitor_tick (fallback_timeout_seconds none) (FallbackState.new 0) 10).2 = true
    ∧ (enter_fallback (FallbackState.new 0)).is_fallback_active = true
    ∧ record_data_received (enter_fallback (FallbackState.new 0)) 11
        = { last_data_time := 11, is_fallback_active := false } :=
  ⟨(C4_fallback_state_machine 0 (fallback_timeout_seconds none) 10
       (FallbackState.new 0)).2.2.1.mpr (by decide),
   rfl,
   (C4_fallback_state_machine 0 (fallback_timeout_seconds none) 11
       (enter_fallback (FallbackState.new 0))).2.2.2.2.2.1 rfl⟩

/-- Claim C5: the backfill emits the fetched newest-first rows in reversed
(oldest-to-newest) order, re-checking the fallback flag before every row:
what is emitted is exactly the longest prefix of the reversed batch along
which the flag still read true, so once the flag reads false nothing
further is emitted; in particular a 3-row batch whose flag flips after the
first emission yields only the oldest row. -/
theorem C5_backfill_order_and_abort (rows : List DbRow) (inFb : ℕ → Bool)
    (a b c : DbRow) :
    (∃ k, k ≤ rows.length
        ∧ backfill_emitted rows inFb = rows.reverse.take k
        ∧ (∀ j, j < k → inFb j = true)
        ∧ (k < rows.length → inFb k = false))
    ∧ ((∀ j, inFb j = true) → backfill_emitted rows inFb = rows.reverse)
    ∧ backfill_emitted [a, b, c] (fun i => i == 0) = [c] := by
  refine ⟨?_, ?_, rfl⟩
  · match rows with
    | [] =>
        exact ⟨0, Nat.le_refl 0, rfl,
          fun j hj => absurd hj (Nat.not_lt_zero j),
          fun h => absurd h (Nat.not_lt_zero 0)⟩
    | r :: rest =>
        obtain ⟨k, hk, heq, hall, hend⟩ := replayRows_spec inFb (r :: rest).reverse 0
        rw [List.length_reverse] at hk hend
        refine ⟨k, hk, ?_, ?_, ?_⟩
        · simpa [backfill_emitted] using heq
        · intro j hj; simpa using hall j hj
        · intro hlt; simpa using hend hlt
  · intro h
    unfold backfill_emitted
    split_ifs with hempty
    · rw [List.isEmpty_iff] at hempty
      rw [hempty]
      rfl
    · exact replayRows_all_true inFb h rows.reverse 0

/-- Witness for C5: an always-true flag replays the whole concrete batch
oldest-first. -/
theorem C5_witness :
    backfill_emitted c5rows (fun _ => true) = c5rows.reverse :=
  (C5_backfill_order_and_abort c5rows (fun _ => true)
      (c5rows.getD 0 c6row) (c5rows.getD 0 c6row) (c5rows.getD 0 c6row)).2.1
    (fun _ => rfl)

/-- C6 counterexample: the alert flag of a replayed row is not a reused
persisted field — it is recomputed from the stored timer and the currently
configured alert threshold, so the same persisted row yields different
alert values under different configurations. -/
theorem C6_counterexample :
    (row_to_processed 1200 c6row).alert = true
    ∧ (row_to_processed 1201 c6row).alert = false
    ∧ (row_to_processed 1200 c6row).timer = 1200 := by
  refine ⟨?_, ?_, ?_⟩ <;> decide

/-- Claim C6 as amended: a replayed row is not re-classified — its state
string, timer (NULL defaulted to 0, cast `as u64`) and acceleration value
are taken verbatim from the persisted row — but its alert flag is
recomputed as stored timer ≥ the currently configured alert threshold. -/
theorem C6_amended (alert_threshold : ℕ) (row : DbRow) :
    (row_to_processed alert_threshold row).state = row.state
    ∧ (row_to_processed alert_threshold row).timer
        = u64_of_i32 (row.timer_seconds.getD 0)
    ∧ (row_to_processed alert_threshold row).val = row.acceleration_val.getD 0
    ∧ (row_to_processed alert_threshold row).alert
        = decide (alert_threshold ≤ u64_of_i32 (row.timer_seconds.getD 0)) :=
  ⟨rfl, rfl, rfl, rfl⟩

/-- C7 counterexample: with the default configured capacity 500 and a
150-entry cache, a backfill-replayed publish trims the history to 100
entries, not to the configured capacity (the live path keeps all 151). -/
theorem C7_counterexample :
    sensor_history_limit none = 500
    ∧ (fallback_cache_update (List.replicate 150 "h") "m").length = 100
    ∧ (serial_cache_update (sensor_history_limit none)
        (List.replicate 150 "h") "m").length = 151 := by
  refine ⟨rfl, ?_, ?_⟩ <;>
    simp [fallback_cache_update, serial_cache_update, ltrim_keep, lpush,
      sensor_history_limit, List.length_take]

/-- Claim C7 as amended: after a live-classified publish the history cache
holds the min(previous+1, N) most recent entries for the configured
capacity N; after a backfill-replayed publish it is trimmed to the literal
100 most recent entries regardless of configuration. -/
theorem C7_amended (limit : Int) (hist : List String) (msg : String) :
    serial_cache_update limit hist msg = (msg :: hist).take limit.toNat
    ∧ (serial_cache_update limit hist msg).length
        = min limit.toNat (hist.length + 1)
    ∧ fallback_cache_update hist msg = (msg :: hist).take 100
    ∧ (fallback_cache_update hist msg).length = min 100 (hist.length + 1) := by
  have h : limit - 1 + 1 = limit := by ring
  unfold serial_cache_update fallback_cache_update ltrim_keep lpush
  rw [h]
  refine ⟨rfl, ?_, rfl, ?_⟩
  · simp [List.length_take]
  · simp [List.length_take]
    omega

/-- C8 counterexample: an unset or unparseable threshold or interval
variable (the parse pipeline yields `none`) is silently replaced by its
default — every loader returns a plain value, so startup proceeds instead
of failing. -/
theorem C8_counterexample :
    thresh_active none = 40/1000
    ∧ thresh_fidget none = 20/1000
    ∧ alert_limit_sec none = 1200
    ∧ fallback_timeout_seconds none = 10
    ∧ fallback_batch_size none = 500
    ∧ fallback_replay_interval_ms none = 100
    ∧ sensor_history_limit none = 500 :=
  ⟨rfl, rfl, rfl, rfl, rfl, rfl, rfl⟩

/-- Claim C8 as amended: configuration loading is total — a successfully
parsed value is used as-is and an invalid or missing value silently falls
back to the documented default; no configuration error aborts startup. -/
theorem C8_amended (q1 q2 : ℚ) (n1 n2 n3 : ℕ) (z1 z2 : Int) :
    thresh_active (some q1) = q1 ∧ thresh_active none = 40/1000
    ∧ thresh_fidget (some q2) = q2 ∧ thresh_fidget none = 20/1000
    ∧ alert_limit_sec (some n1) = n1 ∧ alert_limit_sec none = 1200
    ∧ fallback_timeout_seconds (some n2) = n2
    ∧ fallback_timeout_seconds none = 10
    ∧ fallback_replay_interval_ms (some n3) = n3
    ∧ fallback_replay_interval_ms none = 100
    ∧ fallback_batch_size (some z1) = z1 ∧ fallback_batch_size none = 500
    ∧ sensor_history_limit (some z2) = z2 ∧ sensor_history_limit none = 500 :=
  ⟨rfl, rfl, rfl, rfl, rfl, rfl, rfl, rfl, rfl, rfl, rfl, rfl, rfl, rfl⟩

/-- Claim C9: a newly subscribed observer that requests history first
receives the snapshot of the cache — at most `limit` records, and
reversing what it receives gives back the newest-first cache prefix, i.e.
delivery is oldest-to-newest — and only afterwards the live messages
published after the snapshot, so no history item follows any live item. -/
theorem C9_history_before_live (cache live : List String) (limit : Int) :
    ∃ h, create_sensor_stream false cache limit live = h ++ live
      ∧ h.reverse = cache.take limit.toNat
      ∧ h.length ≤ limit.toNat
      ∧ h.length ≤ cache.length := by
  have hl : limit - 1 + 1 = limit := by ring
  refine ⟨(cache.take limit.toNat).reverse, ?_, by simp, ?_, ?_⟩
  · simp [create_sensor_stream, lrange, hl]
  · rw [List.length_reverse, List.length_take]
    exact min_le_left _ _
  · rw [List.length_reverse, List.length_take]
    exact min_le_right _ _

end SedentaryTracker
